import Mathlib

/-!
Verification of `DataFrameFileProcessor` (src/dffp.py) against its
natural-language specification.

The pandas `files_df` DataFrame is embedded shallowly:
* one `FileRecord` per row with the five attribute columns
  (`Filename`, `Path`, `FileExtension`, `Encoding`, `Magic`);
* `hasAttrCols` records whether those five columns exist at all
  (`pd.DataFrame([])`, produced by `populate_dataframe` on an empty
  directory, has *no* columns; `pd.DataFrame(records)` on a non-empty
  record list, and the `__init__` frame built with an explicit column
  list, have them);
* `filterResult` is the `FilterResult` boolean column, `none` while the
  column has not yet been created (it is created by the first line of
  `apply_filters`).

Reading a column that does not exist raises a pandas `KeyError`; this is
modelled by `PdError.keyError` with the column name.  Mutating methods are
modelled by state passing and return the new frame together with
`Option PdError` (`some e` when the Python method would raise `e`,
leaving the frame in the state reached before the raise).

External effects are oracles: the filesystem checks of `os.path` are a
`FS` structure of boolean-valued functions, `os.walk` is given as the
list of file paths it yields, and the two sniffers (`chardet`, `magic`)
are functions `String → SnifferOutcome` where `SnifferOutcome.raises`
stands for any exception escaping the underlying call.
-/

/-- One row of `files_df` (columns `Filename`, `Path`, `FileExtension`,
`Encoding`, `Magic`).  `Encoding` and `Magic` are nullable (`None` in
Python, `none` here). -/
structure FileRecord where
  filename : String
  path : String
  fileExtension : String
  encoding : Option String
  magic : Option String
deriving Repr, DecidableEq

/-- The `files_df` DataFrame together with the optional `FilterResult`
column.  `hasAttrCols = false` models the columnless empty frame
`pd.DataFrame([])` (only possible with `rows = []`). -/
structure FilesDF where
  rows : List FileRecord
  hasAttrCols : Bool
  filterResult : Option (List Bool)
deriving Repr, DecidableEq

/-- A pandas `KeyError` on a missing column. -/
inductive PdError where
  | keyError : String → PdError
deriving Repr, DecidableEq

/-- The two exceptions `_validate_directory` can raise:
`FileNotFoundError` (the spec's `DirectoryNotFound`) and
`NotADirectoryError` (the spec's `NotADirectory`). -/
inductive InitError where
  | directoryNotFound
  | notADirectory
deriving Repr, DecidableEq

/-- Filesystem oracle for `os.path.exists` and `os.path.isdir`. -/
structure FS where
  pathExists : String → Bool
  pathIsDir : String → Bool

/-- `_validate_directory` (dffp.py lines 49-56): raises
`FileNotFoundError` when the path does not exist, else
`NotADirectoryError` when it is not a directory, else returns. -/
def validate_directory (fs : FS) (parent_directory : String) : Option InitError :=
  if !(fs.pathExists parent_directory) then some InitError.directoryNotFound
  else if !(fs.pathIsDir parent_directory) then some InitError.notADirectory
  else none

/-- `__init__` (dffp.py lines 22-47): validates the directory first
(aborting on error, before any frame exists), then builds the empty
frame with the five attribute columns declared (`pd.DataFrame(columns=[...])`)
and no `FilterResult` column. -/
def init_processor (fs : FS) (parent_directory : String) : Except InitError FilesDF :=
  match validate_directory fs parent_directory with
  | some e => Except.error e
  | none => Except.ok { rows := [], hasAttrCols := true, filterResult := none }

/-- `os.path.basename` for POSIX paths: the suffix after the last `/`. -/
def basename (s : String) : String :=
  String.mk ((s.data.reverse.takeWhile (fun c => c ≠ '/')).reverse)

/-- Index of the last occurrence of `c` in the list, if any. -/
def lastIdxOf (c : Char) : List Char → Option Nat
  | [] => none
  | x :: xs =>
    match lastIdxOf c xs with
    | some i => some (i + 1)
    | none => if x = c then some 0 else none

/-- The extension component of `os.path.splitext` applied to a base name
(no `/` inside): split at the last dot, except that a name whose every
character before that last dot is itself a dot (leading-dot files such as
`.bashrc`) does not split and yields `""`.  This mirrors CPython's
`posixpath.splitext`, which dffp.py line 67 calls on
`os.path.basename(file_path)`. -/
def splitextExt (s : String) : String :=
  match lastIdxOf '.' s.data with
  | none => ""
  | some d =>
    if (s.data.take d).all (fun c => c = '.') then ""
    else String.mk (s.data.drop d)

/-- `populate_dataframe` (dffp.py lines 58-76), with the `os.walk`
traversal given as the list of joined file paths it produces.  Each path
yields one record; `self.files_df = pd.DataFrame(records)` replaces the
frame wholesale, so any previous `FilterResult` column is gone, and an
empty record list yields a frame with no columns at all. -/
def populate_dataframe (walk_file_paths : List String) : FilesDF :=
  let records := walk_file_paths.map (fun p =>
    let filename := basename p
    { filename := filename
      path := p
      fileExtension := splitextExt filename
      encoding := none
      magic := none : FileRecord })
  { rows := records, hasAttrCols := !records.isEmpty, filterResult := none }

/-- Outcome of one call into an external sniffer (`chardet.detect` after
`open`/`read`, or `magic.from_file`): either an exception escapes
(`raises`) or a value (possibly null) is returned. -/
inductive SnifferOutcome where
  | raises
  | returns : Option String → SnifferOutcome
deriving Repr, DecidableEq

/-- `_detect_encoding` (dffp.py lines 99-117): the whole body is wrapped
in `try/except Exception`, so an exception from open/read/chardet becomes
a logged warning and a `None` result. -/
def detect_encoding (oracle : String → SnifferOutcome) (file_path : String) :
    Option String :=
  match oracle file_path with
  | SnifferOutcome.raises => none
  | SnifferOutcome.returns r => r

/-- `_detect_magic` (dffp.py lines 119-134): same `try/except Exception`
shape around `magic.from_file`. -/
def detect_magic (oracle : String → SnifferOutcome) (file_path : String) :
    Option String :=
  match oracle file_path with
  | SnifferOutcome.raises => none
  | SnifferOutcome.returns r => r

/-- `analyze_files` (dffp.py lines 78-97): one pass over the rows in
order, collecting `_detect_encoding` / `_detect_magic` results, then
assigning them back as the whole `Encoding` and `Magic` columns.  Row
identity fields and the `FilterResult` column are untouched. -/
def analyze_files (encOracle magicOracle : String → SnifferOutcome)
    (df : FilesDF) : FilesDF :=
  { df with rows := df.rows.map (fun r =>
      { r with
        encoding := detect_encoding encOracle r.path
        magic := detect_magic magicOracle r.path }) }

/-- Python's `str.lower()` (and pandas `.str.lower()`), modelled as
per-character lowercasing of the string's characters. -/
def strLower (s : String) : String :=
  String.mk (s.data.map Char.toLower)

/-- Row-level value of the mask
`files_df['FileExtension'].str.lower().isin(extensions)` for an already
lower-cased `extensions` list (`FileExtension` is never null). -/
def maskExtension (exts_lower : List String) (r : FileRecord) : Bool :=
  exts_lower.contains (strLower r.fileExtension)

/-- Row-level value of `files_df['Encoding'].str.lower().isin(encodings)`:
a null `Encoding` stays NaN under `.str.lower()` and `isin` yields
`False` for it. -/
def maskEncoding (encs_lower : List String) (r : FileRecord) : Bool :=
  match r.encoding with
  | none => false
  | some s => encs_lower.contains (strLower s)

/-- Row-level value of `files_df['Magic'].str.lower().isin(magic_types)`
(null `Magic` never matches, as for `Encoding`). -/
def maskMagic (magic_lower : List String) (r : FileRecord) : Bool :=
  match r.magic with
  | none => false
  | some s => magic_lower.contains (strLower s)

/-- `_filter_by_extension` (dffp.py lines 188-197): lower-case the
supplied list, then `files_df[filter_column] &= mask`.  Python first
reads the target column (KeyError `FilterResult` if absent), then
evaluates the mask expression (KeyError `FileExtension` if the attribute
columns are absent), then stores the AND. -/
def filter_by_extension (df : FilesDF) (extensions : List String) :
    FilesDF × Option PdError :=
  let exts := extensions.map strLower
  match df.filterResult with
  | none => (df, some (PdError.keyError "FilterResult"))
  | some fr =>
    if df.hasAttrCols then
      let mask := df.rows.map (maskExtension exts)
      ({ df with filterResult := some (List.zipWith (fun a b => a && b) fr mask) },
       none)
    else (df, some (PdError.keyError "FileExtension"))

/-- `_filter_by_encoding` (dffp.py lines 199-208), same shape on the
`Encoding` column. -/
def filter_by_encoding (df : FilesDF) (encodings : List String) :
    FilesDF × Option PdError :=
  let encs := encodings.map strLower
  match df.filterResult with
  | none => (df, some (PdError.keyError "FilterResult"))
  | some fr =>
    if df.hasAttrCols then
      let mask := df.rows.map (maskEncoding encs)
      ({ df with filterResult := some (List.zipWith (fun a b => a && b) fr mask) },
       none)
    else (df, some (PdError.keyError "Encoding"))

/-- `_filter_by_magic` (dffp.py lines 210-219), same shape on the `Magic`
column. -/
def filter_by_magic (df : FilesDF) (magic_types : List String) :
    FilesDF × Option PdError :=
  let mags := magic_types.map strLower
  match df.filterResult with
  | none => (df, some (PdError.keyError "FilterResult"))
  | some fr =>
    if df.hasAttrCols then
      let mask := df.rows.map (maskMagic mags)
      ({ df with filterResult := some (List.zipWith (fun a b => a && b) fr mask) },
       none)
    else (df, some (PdError.keyError "Magic"))

/-- `_infer_and_apply_single_condition` (dffp.py lines 168-186).  The
Python `set(...)` values are modelled as lists (the local
`condition_set` and the three observed-value sets are inlined) — only
membership and non-empty intersection are used, so duplicates and
ordering are irrelevant.  The truthiness test
`condition_set.intersection(set(col.str.lower().unique()))` becomes
"some lower-cased condition value occurs among the lower-cased column
values", with `.dropna()` on `Encoding`/`Magic` rendered by
`filterMap`.  The first column access is `files_df['FileExtension']`,
so a columnless frame raises KeyError `FileExtension` before anything
else. -/
def infer_and_apply_single_condition (df : FilesDF) (condition_list : List String) :
    FilesDF × Option PdError :=
  if df.hasAttrCols then
    if (condition_list.map strLower).any
        (fun c => (df.rows.map (fun r => (strLower r.fileExtension))).contains c) then
      filter_by_extension df condition_list
    else if (condition_list.map strLower).any
        (fun c => ((df.rows.filterMap (fun r => r.encoding)).map
          strLower).contains c) then
      filter_by_encoding df condition_list
    else if (condition_list.map strLower).any
        (fun c => ((df.rows.filterMap (fun r => r.magic)).map
          strLower).contains c) then
      filter_by_magic df condition_list
    else
      (df, none)
  else (df, some (PdError.keyError "FileExtension"))

/-- The `conditions` argument of `apply_filters`: a dict, a bare list
of strings, a single string, or any other Python value (`invalid`).
The dict's four fields are, in order, the values supplied under the
keys `'extensions'`, `'encodings'`, `'magic'`, and `'content_types'`.
The code (dffp.py lines 151-158) tests only the first three literal
keys; `'content_types'` — the caller-facing key name the spec
documents for the content-type category — is never tested, so a
category supplied under it is silently ignored, like any other
unrecognized key. -/
inductive Conditions where
  | dict : Option (List String) → Option (List String) → Option (List String) →
      Option (List String) → Conditions
  | list : List String → Conditions
  | str : String → Conditions
  | invalid
deriving Repr, DecidableEq

/-- Sequencing helper for the dict branch of `apply_filters`: apply
`step` when the key is present, propagating an earlier exception
(nothing after a raise runs). -/
def applyWhenPresent (step : FilesDF → List String → FilesDF × Option PdError)
    (vals : Option (List String)) (st : FilesDF × Option PdError) :
    FilesDF × Option PdError :=
  match st with
  | (df, some e) => (df, some e)
  | (df, none) =>
    match vals with
    | none => (df, none)
    | some l => step df l

/-- `apply_filters` (dffp.py lines 136-166): first
`files_df[filter_column] = True` creates/overwrites the `FilterResult`
column with all-`True` (length = number of rows), then dispatches on the
shape of `conditions`: dict keys `'extensions'`, `'encodings'`,
`'magic'` in that order (no other key, `'content_types'` included, is
ever tested, so those values are dropped); a list is inferred; a string
is wrapped into a one-element list and inferred; anything else only
logs a warning. -/
def apply_filters (df : FilesDF) (conditions : Conditions) :
    FilesDF × Option PdError :=
  let df1 := { df with filterResult := some (df.rows.map (fun _ => true)) }
  match conditions with
  | Conditions.dict exts encs mags _ =>
    applyWhenPresent filter_by_magic mags
      (applyWhenPresent filter_by_encoding encs
        (applyWhenPresent filter_by_extension exts (df1, none)))
  | Conditions.list l => infer_and_apply_single_condition df1 l
  | Conditions.str s => infer_and_apply_single_condition df1 [s]
  | Conditions.invalid => (df1, none)

/-- `get_filtered_files` (dffp.py lines 221-230):
`files_df[files_df[filter_column]]` first reads the `FilterResult`
column (KeyError if it was never created), selects the rows whose flag
is `True` in order, then reads their `Path` column (KeyError on the
columnless empty frame). -/
def get_filtered_files (df : FilesDF) : Except PdError (List String) :=
  match df.filterResult with
  | none => Except.error (PdError.keyError "FilterResult")
  | some fr =>
    if df.hasAttrCols then
      Except.ok ((List.filter (fun pr => pr.2) (df.rows.zip fr)).map
        (fun pr => pr.1.path))
    else Except.error (PdError.keyError "Path")

/-- Modelled from the spec (for the `get_filtered_files` refinement
comparison only, not from the source): "the ordered sequence of `path`
for every record whose `pass_flag` is true, preserving catalog order". -/
def specFilteredPaths : List FileRecord → List Bool → List String
  | r :: rs, b :: bs =>
    if b then r.path :: specFilteredPaths rs bs else specFilteredPaths rs bs
  | _, _ => []

/-- Invariant of a `(frame, raised-exception)` state during one
`apply_filters` call on a frame whose attribute columns exist: nothing
raised, rows untouched, and the `FilterResult` column present with one
flag per row. -/
def FilterInv (R : List FileRecord) (st : FilesDF × Option PdError) : Prop :=
  st.2 = none ∧ st.1.rows = R ∧ st.1.hasAttrCols = true ∧
    ∃ fr, st.1.filterResult = some fr ∧ fr.length = R.length

/-! ### Shared list lemmas -/

theorem zipWith_and_map_true {α : Type} (l : List α) (g : α → Bool) :
    List.zipWith (fun a b => a && b) (l.map (fun _ => true)) (l.map g) = l.map g := by
  induction l with
  | nil => rfl
  | cons x xs ih =>
    simp only [List.map_cons, List.zipWith_cons_cons, Bool.true_and, ih]

theorem zipWith_and_map_map {α : Type} (l : List α) (f g : α → Bool) :
    List.zipWith (fun a b => a && b) (l.map f) (l.map g)
      = l.map (fun x => f x && g x) := by
  induction l with
  | nil => rfl
  | cons x xs ih => simp [ih]

/-! ### Shape lemmas: filtering never touches the rows or the attribute
columns, only the `FilterResult` column -/

theorem filter_by_extension_shape (df : FilesDF) (l : List String) :
    ∃ fr, (filter_by_extension df l).1
      = { rows := df.rows, hasAttrCols := df.hasAttrCols, filterResult := fr } := by
  obtain ⟨rows, attr, f⟩ := df
  cases f with
  | none => exact ⟨none, rfl⟩
  | some fl => cases attr with
    | false => exact ⟨some fl, rfl⟩
    | true => exact ⟨_, rfl⟩

theorem filter_by_encoding_shape (df : FilesDF) (l : List String) :
    ∃ fr, (filter_by_encoding df l).1
      = { rows := df.rows, hasAttrCols := df.hasAttrCols, filterResult := fr } := by
  obtain ⟨rows, attr, f⟩ := df
  cases f with
  | none => exact ⟨none, rfl⟩
  | some fl => cases attr with
    | false => exact ⟨some fl, rfl⟩
    | true => exact ⟨_, rfl⟩

theorem filter_by_magic_shape (df : FilesDF) (l : List String) :
    ∃ fr, (filter_by_magic df l).1
      = { rows := df.rows, hasAttrCols := df.hasAttrCols, filterResult := fr } := by
  obtain ⟨rows, attr, f⟩ := df
  cases f with
  | none => exact ⟨none, rfl⟩
  | some fl => cases attr with
    | false => exact ⟨some fl, rfl⟩
    | true => exact ⟨_, rfl⟩

theorem infer_shape (df : FilesDF) (l : List String) :
    ∃ fr, (infer_and_apply_single_condition df l).1
      = { rows := df.rows, hasAttrCols := df.hasAttrCols, filterResult := fr } := by
  unfold infer_and_apply_single_condition
  split
  · split
    · exact filter_by_extension_shape df l
    · split
      · exact filter_by_encoding_shape df l
      · split
        · exact filter_by_magic_shape df l
        · exact ⟨df.filterResult, rfl⟩
  · exact ⟨df.filterResult, rfl⟩

theorem applyWhenPresent_shape {R : List FileRecord} {A : Bool}
    (step : FilesDF → List String → FilesDF × Option PdError)
    (hstep : ∀ d l, ∃ fr, (step d l).1
      = { rows := d.rows, hasAttrCols := d.hasAttrCols, filterResult := fr })
    (vals : Option (List String)) (st : FilesDF × Option PdError)
    (hst : ∃ fr, st.1 = { rows := R, hasAttrCols := A, filterResult := fr }) :
    ∃ fr, (applyWhenPresent step vals st).1
      = { rows := R, hasAttrCols := A, filterResult := fr } := by
  obtain ⟨d, e⟩ := st
  obtain ⟨f, hf⟩ := hst
  cases e with
  | some err => exact ⟨f, hf⟩
  | none =>
    cases vals with
    | none => exact ⟨f, hf⟩
    | some l =>
      obtain ⟨fr, hfr⟩ := hstep d l
      refine ⟨fr, ?_⟩
      simp only [applyWhenPresent]
      rw [hfr]
      simp only at hf
      rw [hf]

theorem apply_filters_shape (df : FilesDF) (c : Conditions) :
    ∃ fr, (apply_filters df c).1
      = { rows := df.rows, hasAttrCols := df.hasAttrCols, filterResult := fr } := by
  unfold apply_filters
  cases c with
  | dict e n m ct =>
    refine applyWhenPresent_shape _ filter_by_magic_shape _ _ ?_
    refine applyWhenPresent_shape _ filter_by_encoding_shape _ _ ?_
    refine applyWhenPresent_shape _ filter_by_extension_shape _ _ ?_
    exact ⟨_, rfl⟩
  | list l => exact infer_shape _ l
  | str s => exact infer_shape _ [s]
  | invalid => exact ⟨_, rfl⟩

/-- `apply_filters` overwrites the `FilterResult` column before reading
anything, so its behaviour does not depend on the incoming column. -/
theorem apply_filters_fr_irrel (rows : List FileRecord) (attr : Bool)
    (f1 f2 : Option (List Bool)) (c : Conditions) :
    apply_filters { rows := rows, hasAttrCols := attr, filterResult := f1 } c
      = apply_filters { rows := rows, hasAttrCols := attr, filterResult := f2 } c := rfl

/-- C4: separate `apply_filters` calls are non-cumulative.  For every
catalog state and every pair of condition values, running
`apply_filters c1` and then `apply_filters c2` produces exactly the state
(rows, attribute columns, and every record's `FilterResult` pass flag,
together with any raised error) that a single `apply_filters c2` call on
the original catalog produces, because each call starts by resetting the
`FilterResult` column to all-`True` (dffp.py line 148) and never modifies
the attribute columns the filters read. -/
theorem apply_filters_twice_eq_second (df : FilesDF) (c1 c2 : Conditions) :
    apply_filters (apply_filters df c1).1 c2 = apply_filters df c2 := by
  obtain ⟨fr, hfr⟩ := apply_filters_shape df c1
  rw [hfr]
  exact apply_filters_fr_irrel df.rows df.hasAttrCols fr df.filterResult c2

/-- C8: `__init__` fails with `FileNotFoundError` (the spec's
`DirectoryNotFound`) exactly when the root path does not exist, and with
`NotADirectoryError` (the spec's `NotADirectory`) exactly when it exists
but is not a directory.  The validation runs before the frame is
created, and in the `Except.error` cases no catalog value is produced at
all. -/
theorem init_error_iff (fs : FS) (p : String) :
    (init_processor fs p = Except.error InitError.directoryNotFound
      ↔ fs.pathExists p = false) ∧
    (init_processor fs p = Except.error InitError.notADirectory
      ↔ (fs.pathExists p = true ∧ fs.pathIsDir p = false)) := by
  unfold init_processor validate_directory
  cases h1 : fs.pathExists p <;> cases h2 : fs.pathIsDir p <;> simp

/-! ### The extension rule of `os.path.splitext` -/

theorem lastIdxOf_eq_none {c : Char} {l : List Char} (h : c ∉ l) :
    lastIdxOf c l = none := by
  induction l with
  | nil => rfl
  | cons x xs ih =>
    simp only [List.mem_cons, not_or] at h
    unfold lastIdxOf
    rw [ih h.2]
    have hx : ¬(x = c) := fun hxc => h.1 hxc.symm
    simp [hx]

theorem lastIdxOf_append (pre suf : List Char) (h : '.' ∉ suf) :
    lastIdxOf '.' (pre ++ '.' :: suf) = some pre.length := by
  induction pre with
  | nil =>
    simp only [List.nil_append]
    unfold lastIdxOf
    rw [lastIdxOf_eq_none h]
    simp
  | cons x xs ih =>
    simp only [List.cons_append]
    unfold lastIdxOf
    rw [ih]
    simp

/-- C9: the extension recorded by `populate_dataframe` is
`os.path.splitext(filename)[1]`: the suffix of the base name beginning at
its last dot, except that it is `""` when the name has no dot at all or
when every character before the last dot is itself a dot (dot-files such
as `.bashrc`).  Concretely `archive.tar.gz ↦ .gz`, `README ↦ ""`,
`.bashrc ↦ ""`. -/
theorem populate_extension_rule :
    (∀ (paths : List String) (i : Fin (populate_dataframe paths).rows.length),
       ((populate_dataframe paths).rows.get i).fileExtension
         = splitextExt (((populate_dataframe paths).rows.get i).filename)) ∧
    (∀ s : String, '.' ∉ s.data → splitextExt s = "") ∧
    (∀ (s : String) (pre suf : List Char), s.data = pre ++ '.' :: suf →
       '.' ∉ suf →
       ((∃ c ∈ pre, c ≠ '.') → splitextExt s = String.mk ('.' :: suf)) ∧
       ((∀ c ∈ pre, c = '.') → splitextExt s = "")) ∧
    (splitextExt "archive.tar.gz" = ".gz" ∧ splitextExt "README" = ""
      ∧ splitextExt ".bashrc" = "") := by
  refine ⟨?_, ?_, ?_, by decide, by decide, by decide⟩
  · intro paths i
    obtain ⟨iv, hiv⟩ := i
    simp [populate_dataframe, List.get_eq_getElem, List.getElem_map]
  · intro s h
    unfold splitextExt
    rw [lastIdxOf_eq_none h]
  · intro s pre suf hdata hsuf
    unfold splitextExt
    rw [hdata, lastIdxOf_append pre suf hsuf]
    dsimp only
    constructor
    · rintro ⟨c, hc, hne⟩
      have hnot : ¬((List.take pre.length (pre ++ '.' :: suf)).all
          (fun c => decide (c = '.')) = true) := by
        rw [List.take_left]
        simp only [List.all_eq_true, decide_eq_true_eq]
        intro hall
        exact hne (hall c hc)
      rw [if_neg hnot, List.drop_left]
    · intro hall
      have hpos : ((List.take pre.length (pre ++ '.' :: suf)).all
          (fun c => decide (c = '.'))) = true := by
        rw [List.take_left]
        simp only [List.all_eq_true, decide_eq_true_eq]
        exact hall
      rw [if_pos hpos]

/-- Witness for `populate_extension_rule` at concrete names. -/
theorem populate_extension_rule_witness :
    splitextExt "a.b" = String.mk ['.', 'b'] ∧ splitextExt "README" = "" := by
  refine ⟨(populate_extension_rule.2.2.1 "a.b" ['a'] ['b'] (by decide) (by decide)).1
    ⟨'a', by decide, by decide⟩, populate_extension_rule.2.1 "README" (by decide)⟩

/-! ### Evaluation lemmas for the three concrete filters -/

theorem filter_by_extension_eval (df : FilesDF) (l : List String) (fr : List Bool)
    (hattr : df.hasAttrCols = true) (hfr : df.filterResult = some fr) :
    filter_by_extension df l
      = ({ df with filterResult := some (List.zipWith (fun a b => a && b) fr
          (df.rows.map (maskExtension (l.map strLower)))) }, none) := by
  unfold filter_by_extension
  rw [hfr]
  simp [hattr]

theorem filter_by_encoding_eval (df : FilesDF) (l : List String) (fr : List Bool)
    (hattr : df.hasAttrCols = true) (hfr : df.filterResult = some fr) :
    filter_by_encoding df l
      = ({ df with filterResult := some (List.zipWith (fun a b => a && b) fr
          (df.rows.map (maskEncoding (l.map strLower)))) }, none) := by
  unfold filter_by_encoding
  rw [hfr]
  simp [hattr]

theorem filter_by_magic_eval (df : FilesDF) (l : List String) (fr : List Bool)
    (hattr : df.hasAttrCols = true) (hfr : df.filterResult = some fr) :
    filter_by_magic df l
      = ({ df with filterResult := some (List.zipWith (fun a b => a && b) fr
          (df.rows.map (maskMagic (l.map strLower)))) }, none) := by
  unfold filter_by_magic
  rw [hfr]
  simp [hattr]

/-! ### The `FilterInv` invariant is preserved by every filter step -/

theorem filter_by_extension_inv {R : List FileRecord} (df : FilesDF)
    (l : List String) (h : FilterInv R (df, none)) :
    FilterInv R (filter_by_extension df l) := by
  obtain ⟨-, hrows, hattr, fr, hfr, hlen⟩ := h
  have hrows2 : df.rows = R := hrows
  rw [filter_by_extension_eval df l fr hattr hfr]
  refine ⟨rfl, hrows, hattr, _, rfl, ?_⟩
  rw [List.length_zipWith, List.length_map, hlen, hrows2, Nat.min_self]

theorem filter_by_encoding_inv {R : List FileRecord} (df : FilesDF)
    (l : List String) (h : FilterInv R (df, none)) :
    FilterInv R (filter_by_encoding df l) := by
  obtain ⟨-, hrows, hattr, fr, hfr, hlen⟩ := h
  have hrows2 : df.rows = R := hrows
  rw [filter_by_encoding_eval df l fr hattr hfr]
  refine ⟨rfl, hrows, hattr, _, rfl, ?_⟩
  rw [List.length_zipWith, List.length_map, hlen, hrows2, Nat.min_self]

theorem filter_by_magic_inv {R : List FileRecord} (df : FilesDF)
    (l : List String) (h : FilterInv R (df, none)) :
    FilterInv R (filter_by_magic df l) := by
  obtain ⟨-, hrows, hattr, fr, hfr, hlen⟩ := h
  have hrows2 : df.rows = R := hrows
  rw [filter_by_magic_eval df l fr hattr hfr]
  refine ⟨rfl, hrows, hattr, _, rfl, ?_⟩
  rw [List.length_zipWith, List.length_map, hlen, hrows2, Nat.min_self]

theorem applyWhenPresent_inv {R : List FileRecord}
    (step : FilesDF → List String → FilesDF × Option PdError)
    (hstep : ∀ d l, FilterInv R (d, none) → FilterInv R (step d l))
    (vals : Option (List String)) (st : FilesDF × Option PdError)
    (h : FilterInv R st) : FilterInv R (applyWhenPresent step vals st) := by
  obtain ⟨d, e⟩ := st
  have he : e = none := h.1
  subst he
  cases vals with
  | none => exact h
  | some l => exact hstep d l ⟨rfl, h.2⟩

theorem infer_inv {R : List FileRecord} (df : FilesDF) (l : List String)
    (h : FilterInv R (df, none)) :
    FilterInv R (infer_and_apply_single_condition df l) := by
  have hattr : df.hasAttrCols = true := h.2.2.1
  unfold infer_and_apply_single_condition
  split
  · split
    · exact filter_by_extension_inv df l h
    · split
      · exact filter_by_encoding_inv df l h
      · split
        · exact filter_by_magic_inv df l h
        · exact h
  · rename_i hfalse
    exact absurd hattr hfalse

theorem apply_filters_inv (df : FilesDF) (c : Conditions)
    (hattr : df.hasAttrCols = true) :
    FilterInv df.rows (apply_filters df c) := by
  have hbase : FilterInv df.rows
      ({ df with filterResult := some (df.rows.map (fun _ => true)) }, none) :=
    ⟨rfl, rfl, hattr, _, rfl, by simp⟩
  cases c with
  | dict e n m ct =>
    exact applyWhenPresent_inv _ (fun d l => filter_by_magic_inv d l) _ _
      (applyWhenPresent_inv _ (fun d l => filter_by_encoding_inv d l) _ _
        (applyWhenPresent_inv _ (fun d l => filter_by_extension_inv d l) _ _ hbase))
  | list l => exact infer_inv _ l hbase
  | str s => exact infer_inv _ [s] hbase
  | invalid => exact hbase

/-! ### `get_filtered_files` refinement -/

theorem zip_filter_map_eq_spec (rows : List FileRecord) (fr : List Bool) :
    (List.filter (fun pr => pr.2) (rows.zip fr)).map (fun pr => pr.1.path)
      = specFilteredPaths rows fr := by
  induction rows generalizing fr with
  | nil => cases fr <;> rfl
  | cons r rs ih =>
    cases fr with
    | nil => rfl
    | cons b bs => cases b <;> simp [specFilteredPaths, List.filter_cons, ih]

theorem specFilteredPaths_all_false (rows : List FileRecord) (fr : List Bool)
    (h : ∀ b ∈ fr, b = false) : specFilteredPaths rows fr = [] := by
  induction rows generalizing fr with
  | nil => cases fr <;> rfl
  | cons r rs ih =>
    cases fr with
    | nil => rfl
    | cons b bs =>
      have hb : b = false := h b (List.mem_cons_self b bs)
      subst hb
      simp only [specFilteredPaths, if_neg Bool.false_ne_true]
      exact ih bs (fun x hx => h x (List.mem_cons_of_mem _ hx))

theorem get_filtered_files_eval (df : FilesDF) (fr : List Bool)
    (hattr : df.hasAttrCols = true) (hfr : df.filterResult = some fr) :
    get_filtered_files df = Except.ok (specFilteredPaths df.rows fr) := by
  unfold get_filtered_files
  rw [hfr]
  simp [hattr, zip_filter_map_eq_spec]

/-- C1 (amended): once `apply_filters` has been called on a catalog
whose attribute columns exist, `get_filtered_files` returns (without
error) exactly the ordered `Path` values of the records whose
`FilterResult` flag is true, preserving catalog order — in particular an
all-failing filter yields the empty list, not an error.  But *before*
any `apply_filters` call the `FilterResult` column does not exist, and
`get_filtered_files` raises a pandas `KeyError` instead of returning all
file paths. -/
theorem get_filtered_files_spec (df : FilesDF) (h : df.hasAttrCols = true) :
    (∀ c : Conditions, ∃ fr,
      ((apply_filters df c).1).filterResult = some fr ∧
      fr.length = df.rows.length ∧
      get_filtered_files (apply_filters df c).1
        = Except.ok (specFilteredPaths df.rows fr) ∧
      ((∀ b ∈ fr, b = false) →
        get_filtered_files (apply_filters df c).1 = Except.ok [])) ∧
    (df.filterResult = none →
      get_filtered_files df = Except.error (PdError.keyError "FilterResult")) := by
  constructor
  · intro c
    obtain ⟨-, hrows, hattr2, fr, hfr, hlen⟩ := apply_filters_inv df c h
    refine ⟨fr, hfr, by rw [hlen], ?_, ?_⟩
    · rw [get_filtered_files_eval _ fr hattr2 hfr, hrows]
    · intro hall
      rw [get_filtered_files_eval _ fr hattr2 hfr,
        specFilteredPaths_all_false _ fr hall]
  · intro hnone
    unfold get_filtered_files
    rw [hnone]

/-- Witness for `get_filtered_files_spec`: on a one-file catalog, after
`apply_filters` with a malformed condition (all flags reset to true),
`get_filtered_files` returns that file's path. -/
theorem get_filtered_files_spec_witness :
    get_filtered_files
        (apply_filters (populate_dataframe ["d/a.txt"]) Conditions.invalid).1
      = Except.ok ["d/a.txt"] := by
  obtain ⟨fr, hfr, hlen, hok, -⟩ :=
    (get_filtered_files_spec (populate_dataframe ["d/a.txt"]) rfl).1
      Conditions.invalid
  have hfr2 : some fr = some [true] := by
    rw [← hfr]
    rfl
  have hfr3 : fr = [true] := Option.some.inj hfr2
  subst hfr3
  rw [hok]
  rfl

/-- Counterexample to C1 as stated: on a freshly populated one-file
catalog, before any `apply_filters` call, `get_filtered_files` does not
return all file paths — it raises `KeyError('FilterResult')`, because
the boolean column is only created by `apply_filters`. -/
theorem get_filtered_files_before_filters_cex :
    get_filtered_files (populate_dataframe ["d/a.txt"])
        ≠ Except.ok ["d/a.txt"] ∧
    get_filtered_files (populate_dataframe ["d/a.txt"])
        = Except.error (PdError.keyError "FilterResult") := by
  constructor
  · intro hcontra
    have h2 : Except.error (PdError.keyError "FilterResult")
        = Except.ok ["d/a.txt"] := by rw [← hcontra]; rfl
    exact Except.noConfusion h2
  · rfl

/-! ### Evaluating the dict branch of `apply_filters` -/

theorem applyWhenPresent_step_none
    (step : FilesDF → List String → FilesDF × Option PdError) (df : FilesDF) :
    applyWhenPresent step none (df, none) = (df, none) := rfl

theorem applyWhenPresent_step_some
    (step : FilesDF → List String → FilesDF × Option PdError) (df : FilesDF)
    (l : List String) :
    applyWhenPresent step (some l) (df, none) = step df l := rfl

theorem applyWhenPresent_eval_generic
    (step : FilesDF → List String → FilesDF × Option PdError)
    (mask : List String → FileRecord → Bool)
    (hstep : ∀ d l fr, d.hasAttrCols = true → d.filterResult = some fr →
       step d l = ({ d with filterResult := some (List.zipWith (fun a b => a && b)
         fr (d.rows.map (mask l))) }, none))
    (df : FilesDF) (h : df.hasAttrCols = true) (g : FileRecord → Bool)
    (vals : Option (List String)) :
    applyWhenPresent step vals
        ({ df with filterResult := some (df.rows.map g) }, none)
      = ({ df with filterResult := some (df.rows.map (fun r => g r &&
          (match vals with
           | none => true
           | some l => mask l r))) }, none) := by
  cases vals with
  | none =>
    rw [applyWhenPresent_step_none]
    simp
  | some l =>
    rw [applyWhenPresent_step_some,
      hstep { df with filterResult := some (df.rows.map g) } l
        (df.rows.map g) h rfl]
    simp [zipWith_and_map_map]

theorem apply_filters_dict_eval (df : FilesDF)
    (e n m ct : Option (List String)) (h : df.hasAttrCols = true) :
    apply_filters df (Conditions.dict e n m ct)
      = ({ df with filterResult := some (df.rows.map (fun r =>
          ((match e with
            | none => true
            | some l => maskExtension (l.map strLower) r) &&
           (match n with
            | none => true
            | some l => maskEncoding (l.map strLower) r)) &&
          (match m with
           | none => true
           | some l => maskMagic (l.map strLower) r))) }, none) := by
  unfold apply_filters
  dsimp only
  rw [applyWhenPresent_eval_generic filter_by_extension _
      (fun d l fr h1 h2 => filter_by_extension_eval d l fr h1 h2) df h
      (fun _ => true) e,
    applyWhenPresent_eval_generic filter_by_encoding _
      (fun d l fr h1 h2 => filter_by_encoding_eval d l fr h1 h2) df h _ n,
    applyWhenPresent_eval_generic filter_by_magic _
      (fun d l fr h1 h2 => filter_by_magic_eval d l fr h1 h2) df h _ m]
  rcases e with _ | le <;> rcases n with _ | ln <;> rcases m with _ | lm <;> simp

/-- C2 (amended): on a catalog whose attribute columns exist,
`apply_filters` with a dict applies exactly the categories supplied
under the *recognized* keys — `'extensions'`, `'encodings'` and
`'magic'` — and AND-combines them: no error is raised, the
`FilterResult` column gets one flag per record, and a record's flag is
true iff the record satisfies every recognized supplied category's
acceptable-value list (per-category satisfaction being the lower-cased
membership test of the corresponding mask).  The key `content_types`
named by the spec is not among the keys dffp.py lines 153-158 test, so
a category supplied under `'content_types'` is silently ignored: the
whole result is independent of it. -/
theorem apply_filters_dict_and_semantics (df : FilesDF)
    (h : df.hasAttrCols = true) (e n m ct : Option (List String)) :
    apply_filters df (Conditions.dict e n m ct)
      = apply_filters df (Conditions.dict e n m none) ∧
    (apply_filters df (Conditions.dict e n m ct)).2 = none ∧
    ∃ fr, ((apply_filters df (Conditions.dict e n m ct)).1).filterResult
        = some fr ∧
      fr.length = df.rows.length ∧
      ∀ (i : Nat) (hi : i < df.rows.length) (hi2 : i < fr.length),
        (fr.get ⟨i, hi2⟩ = true ↔
          ((∀ l, e = some l →
             maskExtension (l.map strLower) (df.rows.get ⟨i, hi⟩) = true) ∧
           (∀ l, n = some l →
             maskEncoding (l.map strLower) (df.rows.get ⟨i, hi⟩) = true) ∧
           (∀ l, m = some l →
             maskMagic (l.map strLower) (df.rows.get ⟨i, hi⟩) = true))) := by
  refine ⟨rfl, ?_⟩
  rw [apply_filters_dict_eval df e n m ct h]
  refine ⟨rfl, _, rfl, by simp, ?_⟩
  intro i hi hi2
  rw [List.get_eq_getElem, List.get_eq_getElem, List.getElem_map]
  rcases e with _ | le <;> rcases n with _ | ln <;> rcases m with _ | lm <;>
    simp [Bool.and_eq_true, and_assoc]

/-- Witness for `apply_filters_dict_and_semantics` on a concrete
two-record catalog, with a `'content_types'` entry present (and
ignored). -/
theorem apply_filters_dict_and_semantics_witness :
    (apply_filters
        { rows := [
            { filename := "a.cpp", path := "d/a.cpp", fileExtension := ".cpp",
              encoding := some "utf-8", magic := some "text/plain" },
            { filename := "b.bin", path := "d/b.bin", fileExtension := ".bin",
              encoding := none, magic := none }],
          hasAttrCols := true, filterResult := none }
        (Conditions.dict (some [".cpp"]) (some ["utf-8"]) none
          (some ["text/plain"]))).2 = none :=
  (apply_filters_dict_and_semantics
    { rows := [
        { filename := "a.cpp", path := "d/a.cpp", fileExtension := ".cpp",
          encoding := some "utf-8", magic := some "text/plain" },
        { filename := "b.bin", path := "d/b.bin", fileExtension := ".bin",
          encoding := none, magic := none }],
      hasAttrCols := true, filterResult := none }
    rfl (some [".cpp"]) (some ["utf-8"]) none (some ["text/plain"])).2.1

/-- Counterexample to C2 as stated: supplying the spec's documented
mapping key `content_types` — `{'content_types': ['text/plain']}` — on
a one-record catalog whose record has content type `application/pdf`
applies no filter at all, because the code tests only the literal keys
`'extensions'`, `'encodings'` and `'magic'`.  The record does *not*
satisfy the supplied acceptable-value list (its content-type mask is
false), yet its pass flag ends up true and nothing is raised, refuting
the claimed biconditional. -/
theorem apply_filters_content_types_ignored_cex :
    maskMagic (["text/plain"].map strLower)
      { filename := "a.pdf", path := "d/a.pdf", fileExtension := ".pdf",
        encoding := some "utf-8", magic := some "application/pdf" } = false ∧
    (apply_filters
        { rows := [
            { filename := "a.pdf", path := "d/a.pdf", fileExtension := ".pdf",
              encoding := some "utf-8", magic := some "application/pdf" }],
          hasAttrCols := true, filterResult := none }
        (Conditions.dict none none none (some ["text/plain"])))
      = ({ rows := [
            { filename := "a.pdf", path := "d/a.pdf", fileExtension := ".pdf",
              encoding := some "utf-8", magic := some "application/pdf" }],
           hasAttrCols := true, filterResult := some [true] }, none) :=
  ⟨by decide, rfl⟩

/-! ### Bridging the code's lowered-intersection tests to the spec's
"non-empty intersection with the observed values" conditions -/

theorem any_contains_iff (l obs : List String) :
    ((l.map strLower).any (fun c => obs.contains c)) = true
      ↔ ∃ v ∈ l, (strLower v) ∈ obs := by
  simp [List.contains]

theorem anyExt_iff (l : List String) (rows : List FileRecord) :
    ((l.map strLower).any
      (fun c => (rows.map (fun r => (strLower r.fileExtension))).contains c)) = true
    ↔ ∃ v ∈ l, ∃ r ∈ rows, (strLower r.fileExtension) = (strLower v) := by
  rw [any_contains_iff]
  refine exists_congr fun v => and_congr_right fun _ => ?_
  simp [List.mem_map]

theorem anyEnc_iff (l : List String) (rows : List FileRecord) :
    ((l.map strLower).any
      (fun c => ((rows.filterMap (fun r => r.encoding)).map
        strLower).contains c)) = true
    ↔ ∃ v ∈ l, ∃ r ∈ rows, ∃ s, r.encoding = some s
        ∧ (strLower s) = (strLower v) := by
  rw [any_contains_iff]
  refine exists_congr fun v => and_congr_right fun _ => ?_
  simp only [List.mem_map, List.mem_filterMap]
  constructor
  · rintro ⟨s, ⟨r, hr, hrs⟩, hsx⟩
    exact ⟨r, hr, s, hrs, hsx⟩
  · rintro ⟨r, hr, s, hrs, hsx⟩
    exact ⟨s, ⟨r, hr, hrs⟩, hsx⟩

theorem anyMag_iff (l : List String) (rows : List FileRecord) :
    ((l.map strLower).any
      (fun c => ((rows.filterMap (fun r => r.magic)).map
        strLower).contains c)) = true
    ↔ ∃ v ∈ l, ∃ r ∈ rows, ∃ s, r.magic = some s ∧ (strLower s) = (strLower v) := by
  rw [any_contains_iff]
  refine exists_congr fun v => and_congr_right fun _ => ?_
  simp only [List.mem_map, List.mem_filterMap]
  constructor
  · rintro ⟨s, ⟨r, hr, hrs⟩, hsx⟩
    exact ⟨r, hr, s, hrs, hsx⟩
  · rintro ⟨r, hr, s, hrs, hsx⟩
    exact ⟨s, ⟨r, hr, hrs⟩, hsx⟩

/-- The inference dispatch of `_infer_and_apply_single_condition`,
expressed through the spec's intersection conditions. -/
theorem infer_eval (df : FilesDF) (l : List String)
    (h : df.hasAttrCols = true) :
    ((∃ v ∈ l, ∃ r ∈ df.rows, (strLower r.fileExtension) = (strLower v)) →
      infer_and_apply_single_condition df l = filter_by_extension df l) ∧
    (¬(∃ v ∈ l, ∃ r ∈ df.rows, (strLower r.fileExtension) = (strLower v)) →
     (∃ v ∈ l, ∃ r ∈ df.rows, ∃ s, r.encoding = some s
        ∧ (strLower s) = (strLower v)) →
      infer_and_apply_single_condition df l = filter_by_encoding df l) ∧
    (¬(∃ v ∈ l, ∃ r ∈ df.rows, (strLower r.fileExtension) = (strLower v)) →
     ¬(∃ v ∈ l, ∃ r ∈ df.rows, ∃ s, r.encoding = some s
        ∧ (strLower s) = (strLower v)) →
     (∃ v ∈ l, ∃ r ∈ df.rows, ∃ s, r.magic = some s ∧ (strLower s) = (strLower v)) →
      infer_and_apply_single_condition df l = filter_by_magic df l) ∧
    (¬(∃ v ∈ l, ∃ r ∈ df.rows, (strLower r.fileExtension) = (strLower v)) →
     ¬(∃ v ∈ l, ∃ r ∈ df.rows, ∃ s, r.encoding = some s
        ∧ (strLower s) = (strLower v)) →
     ¬(∃ v ∈ l, ∃ r ∈ df.rows, ∃ s, r.magic = some s ∧ (strLower s) = (strLower v)) →
      infer_and_apply_single_condition df l = (df, none)) := by
  refine ⟨fun hx => ?_, fun hx1 hx2 => ?_, fun hx1 hx2 hx3 => ?_,
    fun hx1 hx2 hx3 => ?_⟩
  · unfold infer_and_apply_single_condition
    rw [if_pos h, if_pos ((anyExt_iff l df.rows).mpr hx)]
  · unfold infer_and_apply_single_condition
    rw [if_pos h, if_neg (fun hb => hx1 ((anyExt_iff l df.rows).mp hb)),
      if_pos ((anyEnc_iff l df.rows).mpr hx2)]
  · unfold infer_and_apply_single_condition
    rw [if_pos h, if_neg (fun hb => hx1 ((anyExt_iff l df.rows).mp hb)),
      if_neg (fun hb => hx2 ((anyEnc_iff l df.rows).mp hb)),
      if_pos ((anyMag_iff l df.rows).mpr hx3)]
  · unfold infer_and_apply_single_condition
    rw [if_pos h, if_neg (fun hb => hx1 ((anyExt_iff l df.rows).mp hb)),
      if_neg (fun hb => hx2 ((anyEnc_iff l df.rows).mp hb)),
      if_neg (fun hb => hx3 ((anyMag_iff l df.rows).mp hb))]

/-- C3: on a catalog whose attribute columns exist, an unlabeled list
(and a single string, which is wrapped into a one-element list) is
dispatched by the fixed three-step inference: if some lower-cased value
occurs among the lower-cased observed extensions, the extension filter
runs on the reset frame; otherwise, if one occurs among the lower-cased
non-null encodings, the encoding filter runs; otherwise, if one occurs
among the lower-cased non-null magic (content-type) values, the magic
filter runs; otherwise nothing is filtered, all flags stay at the reset
all-true value, and no error is raised.  The branch order gives
extension precedence over encoding over content type. -/
theorem apply_filters_infer_precedence (df : FilesDF)
    (h : df.hasAttrCols = true) (l : List String) :
    ((∃ v ∈ l, ∃ r ∈ df.rows, (strLower r.fileExtension) = (strLower v)) →
      apply_filters df (Conditions.list l)
        = filter_by_extension
            { df with filterResult := some (df.rows.map (fun _ => true)) } l) ∧
    (¬(∃ v ∈ l, ∃ r ∈ df.rows, (strLower r.fileExtension) = (strLower v)) →
     (∃ v ∈ l, ∃ r ∈ df.rows, ∃ s, r.encoding = some s
        ∧ (strLower s) = (strLower v)) →
      apply_filters df (Conditions.list l)
        = filter_by_encoding
            { df with filterResult := some (df.rows.map (fun _ => true)) } l) ∧
    (¬(∃ v ∈ l, ∃ r ∈ df.rows, (strLower r.fileExtension) = (strLower v)) →
     ¬(∃ v ∈ l, ∃ r ∈ df.rows, ∃ s, r.encoding = some s
        ∧ (strLower s) = (strLower v)) →
     (∃ v ∈ l, ∃ r ∈ df.rows, ∃ s, r.magic = some s ∧ (strLower s) = (strLower v)) →
      apply_filters df (Conditions.list l)
        = filter_by_magic
            { df with filterResult := some (df.rows.map (fun _ => true)) } l) ∧
    (¬(∃ v ∈ l, ∃ r ∈ df.rows, (strLower r.fileExtension) = (strLower v)) →
     ¬(∃ v ∈ l, ∃ r ∈ df.rows, ∃ s, r.encoding = some s
        ∧ (strLower s) = (strLower v)) →
     ¬(∃ v ∈ l, ∃ r ∈ df.rows, ∃ s, r.magic = some s ∧ (strLower s) = (strLower v)) →
      apply_filters df (Conditions.list l)
        = ({ df with filterResult := some (df.rows.map (fun _ => true)) },
           none)) ∧
    (∀ s : String, apply_filters df (Conditions.str s)
      = apply_filters df (Conditions.list [s])) := by
  have hi := infer_eval
    { df with filterResult := some (df.rows.map (fun _ => true)) } l h
  exact ⟨fun hx => hi.1 hx, fun hx1 hx2 => hi.2.1 hx1 hx2,
    fun hx1 hx2 hx3 => hi.2.2.1 hx1 hx2 hx3,
    fun hx1 hx2 hx3 => hi.2.2.2 hx1 hx2 hx3, fun s => rfl⟩

/-- Witness for `apply_filters_infer_precedence`: `utf-8` is not an
observed extension but is an observed encoding, so the encoding filter
is inferred. -/
theorem apply_filters_infer_precedence_witness :
    apply_filters
        { rows := [
            { filename := "a.cpp", path := "d/a.cpp",
              fileExtension := ".cpp", encoding := some "utf-8",
              magic := some "text/plain" }],
          hasAttrCols := true, filterResult := none }
        (Conditions.list ["utf-8"])
      = filter_by_encoding
          { rows := [
              { filename := "a.cpp", path := "d/a.cpp",
                fileExtension := ".cpp", encoding := some "utf-8",
                magic := some "text/plain" }],
            hasAttrCols := true, filterResult := some [true] } ["utf-8"] :=
  (apply_filters_infer_precedence
    { rows := [
        { filename := "a.cpp", path := "d/a.cpp",
          fileExtension := ".cpp", encoding := some "utf-8",
          magic := some "text/plain" }],
      hasAttrCols := true, filterResult := none }
    rfl ["utf-8"]).2.1 (by decide) (by decide)

/-- C7: malformed or uninferable conditions are non-fatal.  Any
`conditions` value that is not a dict, list or string only logs a
warning, raises nothing, and leaves the freshly reset all-true
`FilterResult` column in place; a single string behaves as its
one-element list; and an unlabeled list whose values intersect none of
the three observed attribute value sets likewise raises nothing and
leaves every record passing. -/
theorem apply_filters_nonfatal (df : FilesDF) :
    (apply_filters df Conditions.invalid
      = ({ df with filterResult := some (df.rows.map (fun _ => true)) },
         none)) ∧
    (∀ s : String, apply_filters df (Conditions.str s)
      = apply_filters df (Conditions.list [s])) ∧
    (df.hasAttrCols = true → ∀ l : List String,
      ¬(∃ v ∈ l, ∃ r ∈ df.rows, (strLower r.fileExtension) = (strLower v)) →
      ¬(∃ v ∈ l, ∃ r ∈ df.rows, ∃ s, r.encoding = some s
          ∧ (strLower s) = (strLower v)) →
      ¬(∃ v ∈ l, ∃ r ∈ df.rows, ∃ s, r.magic = some s
          ∧ (strLower s) = (strLower v)) →
      apply_filters df (Conditions.list l)
        = ({ df with filterResult := some (df.rows.map (fun _ => true)) },
           none)) := by
  refine ⟨rfl, fun s => rfl, fun h l hx1 hx2 hx3 => ?_⟩
  exact (infer_eval
    { df with filterResult := some (df.rows.map (fun _ => true)) } l
    h).2.2.2 hx1 hx2 hx3

/-- Witness for `apply_filters_nonfatal`: an uninferable value leaves
the one-record catalog fully passing with no error. -/
theorem apply_filters_nonfatal_witness :
    apply_filters (populate_dataframe ["d/a.txt"]) (Conditions.list ["nope"])
      = ({ populate_dataframe ["d/a.txt"] with filterResult := some [true] },
         none) :=
  (apply_filters_nonfatal (populate_dataframe ["d/a.txt"])).2.2 rfl ["nope"]
    (by decide) (by decide) (by decide)

/-- C5: each concrete filter compares the lower-cased record field
against the lower-cased supplied values.  Null `Encoding`/`Magic` fields
never match (their mask is false, so the AND-update always fails them);
the filters depend on the supplied values only through their lower-cased
forms (case-insensitive matching); the flag update of each filter is the
AND of the previous flag with the lower-cased membership mask; and a
supplied `.CPP` matches a record whose extension is `.cpp`. -/
theorem filter_case_insensitive_null_fails :
    (∀ (encs : List String) (r : FileRecord), r.encoding = none →
      maskEncoding encs r = false) ∧
    (∀ (mags : List String) (r : FileRecord), r.magic = none →
      maskMagic mags r = false) ∧
    (∀ (v1 v2 : List String), v1.map strLower = v2.map strLower →
      ∀ df : FilesDF,
        filter_by_extension df v1 = filter_by_extension df v2 ∧
        filter_by_encoding df v1 = filter_by_encoding df v2 ∧
        filter_by_magic df v1 = filter_by_magic df v2) ∧
    (∀ (df : FilesDF) (fr : List Bool) (vals : List String),
      df.hasAttrCols = true → df.filterResult = some fr →
      ((filter_by_extension df vals).1).filterResult
        = some (List.zipWith (fun a b => a && b) fr
            (df.rows.map (maskExtension (vals.map strLower)))) ∧
      ((filter_by_encoding df vals).1).filterResult
        = some (List.zipWith (fun a b => a && b) fr
            (df.rows.map (maskEncoding (vals.map strLower)))) ∧
      ((filter_by_magic df vals).1).filterResult
        = some (List.zipWith (fun a b => a && b) fr
            (df.rows.map (maskMagic (vals.map strLower))))) ∧
    (filter_by_extension
        { rows := [
            { filename := "x.cpp", path := "d/x.cpp", fileExtension := ".cpp",
              encoding := none, magic := none }],
          hasAttrCols := true, filterResult := some [true] } [".CPP"]
      = ({ rows := [
            { filename := "x.cpp", path := "d/x.cpp", fileExtension := ".cpp",
              encoding := none, magic := none }],
           hasAttrCols := true, filterResult := some [true] }, none)) := by
  refine ⟨?_, ?_, ?_, ?_, by decide⟩
  · intro encs r h
    simp [maskEncoding, h]
  · intro mags r h
    simp [maskMagic, h]
  · intro v1 v2 h df
    refine ⟨?_, ?_, ?_⟩
    · unfold filter_by_extension
      rw [h]
    · unfold filter_by_encoding
      rw [h]
    · unfold filter_by_magic
      rw [h]
  · intro df fr vals h1 h2
    exact ⟨by rw [filter_by_extension_eval df vals fr h1 h2],
      by rw [filter_by_encoding_eval df vals fr h1 h2],
      by rw [filter_by_magic_eval df vals fr h1 h2]⟩

/-- Witness for `filter_case_insensitive_null_fails`: a record with null
encoding fails the encoding mask. -/
theorem filter_case_insensitive_null_fails_witness :
    maskEncoding ["utf-8"]
      { filename := "a", path := "d/a", fileExtension := ".txt",
        encoding := none, magic := none } = false :=
  filter_case_insensitive_null_fails.1 ["utf-8"]
    { filename := "a", path := "d/a", fileExtension := ".txt",
      encoding := none, magic := none } rfl

/-- C6: enrichment is a total, per-file best-effort pass.
`analyze_files` never raises (it is a total function of the two sniffer
oracles, each sniffer call being wrapped in `try/except`); it preserves
the row count, the attribute columns flag and the `FilterResult` column;
every record's identity fields are unchanged; every record's `Encoding`
and `Magic` are written exactly once, to the value of its own detection
call; and when a detection raises for one file, that record's field is
null while every other record is computed from its own path,
unaffected. -/
theorem analyze_files_best_effort (encO magO : String → SnifferOutcome)
    (df : FilesDF) :
    (analyze_files encO magO df).rows.length = df.rows.length ∧
    (analyze_files encO magO df).hasAttrCols = df.hasAttrCols ∧
    (analyze_files encO magO df).filterResult = df.filterResult ∧
    ∀ (i : Nat) (hi : i < df.rows.length)
      (hi2 : i < (analyze_files encO magO df).rows.length),
      ((analyze_files encO magO df).rows.get ⟨i, hi2⟩).filename
          = (df.rows.get ⟨i, hi⟩).filename ∧
      ((analyze_files encO magO df).rows.get ⟨i, hi2⟩).path
          = (df.rows.get ⟨i, hi⟩).path ∧
      ((analyze_files encO magO df).rows.get ⟨i, hi2⟩).fileExtension
          = (df.rows.get ⟨i, hi⟩).fileExtension ∧
      ((analyze_files encO magO df).rows.get ⟨i, hi2⟩).encoding
          = detect_encoding encO ((df.rows.get ⟨i, hi⟩).path) ∧
      ((analyze_files encO magO df).rows.get ⟨i, hi2⟩).magic
          = detect_magic magO ((df.rows.get ⟨i, hi⟩).path) ∧
      (encO ((df.rows.get ⟨i, hi⟩).path) = SnifferOutcome.raises →
        ((analyze_files encO magO df).rows.get ⟨i, hi2⟩).encoding = none) ∧
      (magO ((df.rows.get ⟨i, hi⟩).path) = SnifferOutcome.raises →
        ((analyze_files encO magO df).rows.get ⟨i, hi2⟩).magic = none) := by
  refine ⟨by simp [analyze_files], rfl, rfl, ?_⟩
  intro i hi hi2
  simp only [analyze_files, List.get_eq_getElem, List.getElem_map]
  refine ⟨trivial, trivial, trivial, trivial, trivial, fun h => ?_, fun h => ?_⟩
  · simp [detect_encoding, h]
  · simp [detect_magic, h]

/-- Witness for `analyze_files_best_effort`: an always-raising sniffer
yields a null `Encoding` for the analyzed record. -/
theorem analyze_files_best_effort_witness :
    ((analyze_files (fun _ => SnifferOutcome.raises)
        (fun _ => SnifferOutcome.raises)
        (populate_dataframe ["d/a.txt"])).rows.get ⟨0, by decide⟩).encoding
      = none := by
  have h := (analyze_files_best_effort (fun _ => SnifferOutcome.raises)
    (fun _ => SnifferOutcome.raises) (populate_dataframe ["d/a.txt"])).2.2.2
    0 (by decide) (by decide)
  exact h.2.2.2.2.2.1 rfl

/-- C10 (amended): `populate_dataframe` on a directory with zero regular
files replaces the catalog with the columnless empty frame
(`pd.DataFrame([])`).  A subsequent `apply_filters` of list shape or
string shape, or of mapping shape supplying at least one recognized key,
raises a pandas `KeyError` for the first attribute column it touches
(`FileExtension`, `Encoding` or `Magic`) — after having created the
(empty) `FilterResult` column.  A mapping supplying none of the
recognized keys (e.g. the empty dict) completes without error, leaving
the empty all-pass filter column. -/
theorem empty_catalog_filters_keyerror :
    (populate_dataframe []).rows = [] ∧
    (populate_dataframe []).hasAttrCols = false ∧
    (∀ l : List String,
      apply_filters (populate_dataframe []) (Conditions.list l)
        = ({ rows := [], hasAttrCols := false, filterResult := some [] },
           some (PdError.keyError "FileExtension"))) ∧
    (∀ s : String,
      apply_filters (populate_dataframe []) (Conditions.str s)
        = ({ rows := [], hasAttrCols := false, filterResult := some [] },
           some (PdError.keyError "FileExtension"))) ∧
    (∀ (l : List String) (n m ct : Option (List String)),
      apply_filters (populate_dataframe []) (Conditions.dict (some l) n m ct)
        = ({ rows := [], hasAttrCols := false, filterResult := some [] },
           some (PdError.keyError "FileExtension"))) ∧
    (∀ (l : List String) (m ct : Option (List String)),
      apply_filters (populate_dataframe [])
          (Conditions.dict none (some l) m ct)
        = ({ rows := [], hasAttrCols := false, filterResult := some [] },
           some (PdError.keyError "Encoding"))) ∧
    (∀ (l : List String) (ct : Option (List String)),
      apply_filters (populate_dataframe [])
          (Conditions.dict none none (some l) ct)
        = ({ rows := [], hasAttrCols := false, filterResult := some [] },
           some (PdError.keyError "Magic"))) ∧
    (∀ ct : Option (List String),
      apply_filters (populate_dataframe []) (Conditions.dict none none none ct)
        = ({ rows := [], hasAttrCols := false, filterResult := some [] },
           none)) :=
  ⟨rfl, rfl, fun _ => rfl, fun _ => rfl, fun _ _ _ _ => rfl,
    fun _ _ _ => rfl, fun _ _ => rfl, fun _ => rfl⟩

/-- Counterexample to C10 as stated: not *every* mapping-shape
`apply_filters` call on the zero-file catalog fails with a
column-lookup error — a mapping supplying none of the recognized keys
(the empty dict) completes without raising. -/
theorem empty_catalog_dict_no_keys_cex :
    (apply_filters (populate_dataframe [])
        (Conditions.dict none none none none)).2
      = none := rfl
